import Mathlib

/-!
# Verification of the Web-review task-lifecycle engine (src/main.py)

A shallow embedding of the task lifecycle engine of `src/main.py` (the final
revision of the bot; `src/bot.py` is an earlier near-duplicate revision and is
out of scope per the spec). Currency amounts (Python floats) are modelled as
rationals; timestamps and times of day as naturals; the Firestore document
collections as association lists keyed by ids. Each definition carries the
line range of the source it embeds.
-/

namespace WebReview

/-! ## Association-list store primitives

Firestore point reads/writes by document id (`.document(id).get()`,
`.document(id).update(...)`) are modelled on association lists. `lookupA`
returns the first binding of a key, `setA` rewrites the first binding,
`modifyA` applies a function to the first binding and is the image of
`update({field: firestore.Increment(d)})`-style delta writes. -/

def lookupA {κ α : Type} [DecidableEq κ] : List (κ × α) → κ → Option α
  | [], _ => none
  | (k, v) :: rest, key => if k = key then some v else lookupA rest key

def setA {κ α : Type} [DecidableEq κ] : List (κ × α) → κ → α → List (κ × α)
  | [], _, _ => []
  | (k, v) :: rest, key, nv =>
      if k = key then (k, nv) :: rest else (k, v) :: setA rest key nv

def modifyA {κ α : Type} [DecidableEq κ] : List (κ × α) → κ → (α → α) → List (κ × α)
  | [], _, _ => []
  | (k, v) :: rest, key, f =>
      if k = key then (k, f v) :: rest else (k, v) :: modifyA rest key f

/-! ## Data model (spec section 3, main.py sections 2-4) -/

/-- Task and withdrawal status values written by main.py:
`"pending"`, `"approved"`, `"rejected"`. -/
inductive Status
  | pending
  | approved
  | rejected
deriving DecidableEq, Repr

/-- User account document (main.py:170-184 `create_user`): balance and
task counter mutated by `firestore.Increment` deltas, referrer set once at
creation, block/admin flags. -/
structure UserRec where
  name : String
  balance : ℚ
  total_tasks : Nat
  referrer : Option String
  is_blocked : Bool
  is_admin : Bool
deriving DecidableEq, Repr

/-- Task document (main.py:485-495 `save_task`): the price is captured from
the config at submission time. `approved_at` and `processed_by` are written
by the settlement paths (main.py:574, main.py:562). -/
structure TaskRec where
  user_id : String
  app_id : String
  review_name : String
  email : String
  device : String
  screenshot : String
  status : Status
  submitted_at : Nat
  price : ℚ
  approved_at : Option Nat
  processed_by : Option String
deriving DecidableEq, Repr

/-- Withdrawal request document (main.py:344-352 `withdraw_amount`). -/
structure WithdrawalRec where
  user_id : String
  amount : ℚ
  method : String
  number : String
  status : Status
  requested_at : Nat
  processed_by : Option String
deriving DecidableEq, Repr

/-- A review as returned by the external feed (google_play_scraper), with the
fields main.py reads: `reviewId`, `userName`, `score`, `content`, `at`. -/
structure Review where
  reviewId : String
  userName : String
  score : Nat
  content : String
  posted_at : Nat
deriving DecidableEq, Repr

/-- The notification main.py:603-612 builds for a newly seen review (the AI
annotation is an external service and is not modelled). -/
structure ReviewNotif where
  app_id : String
  reviewId : String
  userName : String
  score : Nat
deriving DecidableEq, Repr

/-- Runtime configuration (main.py:78-96 `DEFAULT_CONFIG`), restricted to the
keys the embedded operations read. `work_start_time` / `work_end_time` are the
`"%H:%M"` strings already parsed to minutes of the day; `monitored_apps` is a
list of (app id, display name) pairs. -/
structure Config where
  task_price : ℚ
  referral_bonus : ℚ
  min_withdraw : ℚ
  monitored_apps : List (String × String)
  work_start_time : Nat
  work_end_time : Nat
deriving DecidableEq, Repr

/-- The persistent state the engine mutates: the Firestore collections
`users`, `tasks`, `withdrawals`, `seen_reviews`, plus the config document and
the owner id from the environment. `next_task_id` / `next_wd_id` model
Firestore's fresh auto-ids for `.add(...)`; `sent` models the messages
emitted through `send_telegram_message` / `send_log_message`. -/
structure BotState where
  owner_id : String
  config : Config
  users : List (String × UserRec)
  tasks : List (Nat × TaskRec)
  withdrawals : List (Nat × WithdrawalRec)
  next_task_id : Nat
  next_wd_id : Nat
  seen_reviews : List (String × Nat)
  sent : List ReviewNotif
deriving DecidableEq, Repr

/-- main.py:156-161 `is_admin`: the owner id from the environment is always an
admin; otherwise the user document's `is_admin` flag (false if absent). -/
def is_admin (s : BotState) (uid : String) : Bool :=
  if uid = s.owner_id then true
  else
    match lookupA s.users uid with
    | some u => u.is_admin
    | none => false

/-- Balance of a user, 0 if the document is absent. -/
def balanceOf (s : BotState) (uid : String) : ℚ :=
  match lookupA s.users uid with
  | some u => u.balance
  | none => 0

/-- Status of a task document, if it exists. -/
def taskStatusOf (s : BotState) (tid : Nat) : Option Status :=
  (lookupA s.tasks tid).map (fun td => td.status)

/-- Status of a withdrawal document, if it exists. -/
def wdStatusOf (s : BotState) (wid : Nat) : Option Status :=
  (lookupA s.withdrawals wid).map (fun wd => wd.status)

/-! ## Account ledger and settlement operations -/

/-- main.py:570-580 `approve_task`: re-reads the task document; only if it
exists and its status is still `"pending"` does it set the status to
`"approved"` with an approval timestamp and credit the user's balance by
`amount` and the task counter by 1 (both as `firestore.Increment` deltas);
otherwise it returns `False` without touching anything. No referrer is
credited anywhere in this path. -/
def approve_task (s : BotState) (task_id : Nat) (user_id : String) (amount : ℚ) (now : Nat) :
    BotState × Bool :=
  match lookupA s.tasks task_id with
  | some td =>
      if td.status = Status.pending then
        ({ s with
            tasks := setA s.tasks task_id
              ({ td with status := Status.approved, approved_at := some now }),
            users := modifyA s.users user_id (fun u =>
              { u with balance := u.balance + amount, total_tasks := u.total_tasks + 1 }) },
          true)
      else (s, false)
  | none => (s, false)

/-- Outcome reported by the manual task action handler (alert texts of
main.py:533, 545, 550, 558, 563). -/
inductive TaskActReport
  | authError
  | notFound
  | alreadyProcessed (st : Status)
  | approvedOk
  | rejectedOk
deriving DecidableEq, Repr

/-- main.py:530-564 `handle_task_action`: the manual admin approve/reject of a
task, parsed from callback data `t_apr_{task_id}_{user_id}` /
`t_rej_{task_id}_{user_id}`. Guarded by `is_admin` on the acting account and
by the status re-read (`already ...` no-op when not pending); the approve
branch delegates to `approve_task` (which re-checks again), the reject branch
writes `status = "rejected"` and `processed_by`. -/
def handle_task_action (s : BotState) (actor : String) (approve : Bool)
    (task_id : Nat) (user_id : String) (now : Nat) : BotState × TaskActReport :=
  if is_admin s actor then
    match lookupA s.tasks task_id with
    | none => (s, TaskActReport.notFound)
    | some td =>
        if td.status = Status.pending then
          if approve then
            ((approve_task s task_id user_id td.price now).1, TaskActReport.approvedOk)
          else
            ({ s with
                tasks := setA s.tasks task_id
                  ({ td with status := Status.rejected, processed_by := some actor }) },
              TaskActReport.rejectedOk)
        else (s, TaskActReport.alreadyProcessed td.status)
  else (s, TaskActReport.authError)

/-- Outcome reported by the manual withdrawal action handler
(main.py:382, 392, 397, 405, 411). -/
inductive WdActReport
  | authError
  | notFound
  | alreadyProcessed (st : Status)
  | approvedOk
  | rejectedOk
deriving DecidableEq, Repr

/-- main.py:379-412 `handle_withdrawal_action`: manual admin approve/reject of
a withdrawal request, parsed from `wd_apr_{wd_id}_{user_id}` /
`wd_rej_{wd_id}_{user_id}`. Guarded by `is_admin` and by the status re-read
(`Already processed (status)` no-op when not pending). Approve marks the
request `"approved"` and leaves the earlier debit in place; reject marks it
`"rejected"` and refunds the request's `amount` to the user's balance as an
increment. -/
def handle_withdrawal_action (s : BotState) (actor : String) (approve : Bool)
    (wd_id : Nat) (user_id : String) : BotState × WdActReport :=
  if is_admin s actor then
    match lookupA s.withdrawals wd_id with
    | none => (s, WdActReport.notFound)
    | some wd =>
        if wd.status = Status.pending then
          if approve then
            ({ s with
                withdrawals := setA s.withdrawals wd_id
                  ({ wd with status := Status.approved, processed_by := some actor }) },
              WdActReport.approvedOk)
          else
            ({ s with
                withdrawals := setA s.withdrawals wd_id
                  ({ wd with status := Status.rejected, processed_by := some actor }),
                users := modifyA s.users user_id (fun u =>
                  { u with balance := u.balance + wd.amount }) },
              WdActReport.rejectedOk)
        else (s, WdActReport.alreadyProcessed wd.status)
  else (s, WdActReport.authError)

/-- Outcome of the withdrawal request step. -/
inductive WithdrawOutcome
  | userError
  | belowMin
  | insufficient
  | ok (wd_id : Nat)
deriving DecidableEq, Repr

/-- main.py:326-377 `withdraw_amount` (terminal step of the withdrawal
dialog): the amount is the parsed numeric input (the `ValueError` re-prompt on
non-numeric text is outside this model). Refuses below `min_withdraw` and
above the current balance with no mutation; otherwise debits the balance by
the amount immediately (`firestore.Increment(-amount)`) and creates a
`"pending"` withdrawal document with a fresh id. When `get_user` returns no
document the handler crashes into the catch-all before mutating anything. -/
def withdraw_amount (s : BotState) (user_id : String) (amount : ℚ)
    (method number : String) (now : Nat) : BotState × WithdrawOutcome :=
  match lookupA s.users user_id with
  | none => (s, WithdrawOutcome.userError)
  | some u =>
      if amount < s.config.min_withdraw then (s, WithdrawOutcome.belowMin)
      else if amount > u.balance then (s, WithdrawOutcome.insufficient)
      else
        ({ s with
            users := modifyA s.users user_id (fun v =>
              { v with balance := v.balance + (-amount) }),
            withdrawals := (s.next_wd_id,
              { user_id := user_id, amount := amount, method := method, number := number,
                status := Status.pending, requested_at := now, processed_by := none })
              :: s.withdrawals,
            next_wd_id := s.next_wd_id + 1 },
          WithdrawOutcome.ok s.next_wd_id)

/-! ## Working hours and the task-submission dialog -/

/-- main.py:139-154 `is_working_hour`, with the `"%H:%M"` config strings and
the current wall-clock time of day modelled as minutes of the day (the
`except: return True` fallback for unparsable config strings is outside this
model since inputs arrive already parsed). `start < end` compares the window
inclusively on both bounds; otherwise (window crossing midnight, or start and
end equal) the check is `now >= start or now <= end`. -/
def is_working_hour (start endT now : Nat) : Bool :=
  if start < endT then decide (start ≤ now) && decide (now ≤ endT)
  else decide (now ≥ start) || decide (now ≤ endT)

/-- Outcome of entering the task-submission dialog. -/
inductive StartSubmitOutcome
  | refusedOutsideHours
  | noApps
  | proceed
deriving DecidableEq, Repr

/-- main.py:416-446 `start_task_submission` (entry point of the submission
conversation, main.py:1198-1208): refuses entry outside the configured
working-hours window, refuses when no apps are monitored, otherwise shows the
app menu and enters the dialog. No state is written here. -/
def start_task_submission (s : BotState) (now : Nat) : BotState × StartSubmitOutcome :=
  if !is_working_hour s.config.work_start_time s.config.work_end_time now then
    (s, StartSubmitOutcome.refusedOutsideHours)
  else if s.config.monitored_apps = [] then (s, StartSubmitOutcome.noApps)
  else (s, StartSubmitOutcome.proceed)

/-- main.py:478-517 `save_task` (terminal state of the submission dialog):
creates the `"pending"` task document, capturing the configured `task_price`
at submission time. Returns the fresh task id. -/
def save_task (s : BotState) (user_id : String)
    (app_id rname email device screenshot : String) (now : Nat) : BotState × Nat :=
  ({ s with
      tasks := (s.next_task_id,
        { user_id := user_id, app_id := app_id, review_name := rname, email := email,
          device := device, screenshot := screenshot, status := Status.pending,
          submitted_at := now, price := s.config.task_price,
          approved_at := none, processed_by := none }) :: s.tasks,
      next_task_id := s.next_task_id + 1 },
    s.next_task_id)

/-- The free-text fields collected by the submission dialog states
(main.py:448-476). -/
structure SubmissionInputs where
  app_id : String
  review_name : String
  email : String
  device : String
  screenshot : String
deriving DecidableEq, Repr

/-! ## Python string normalization (`.strip()` / `.lower()`) -/

/-- Python str.strip() on a character list: drop leading and trailing
whitespace. (Python strips a slightly larger whitespace set than the four
ASCII whitespace characters of `Char.isWhitespace`; the difference does not
touch the claims at issue.) -/
def stripL (l : List Char) : List Char :=
  ((l.dropWhile Char.isWhitespace).reverse.dropWhile Char.isWhitespace).reverse

/-- Python str.strip() (main.py:464 on the claimed review name, main.py:619 on
both sides of the match comparison). -/
def pyStrip (x : String) : String := String.mk (stripL x.toList)

/-- Python str.lower(), restricted to its action on the basic latin block
(`Char.toLower` lowers exactly ASCII A-Z, which is Python's behaviour there).
-/
def pyLower (x : String) : String := String.mk (x.toList.map Char.toLower)

/-! ## Matching and the automation loop -/

/-- main.py:619: the name comparison of the matching engine,
`td['review_name'].lower().strip() == r['userName'].lower().strip()`. -/
def name_matches (task_name author : String) : Bool :=
  decide (pyStrip (pyLower task_name) = pyStrip (pyLower author))

/-- The matching rule as implemented: the task query of main.py:616 filters
by `app_id == app['id']` (the app the review was fetched for) and
main.py:619 compares the normalized names. -/
def task_matches_review (td : TaskRec) (appId : String) (r : Review) : Bool :=
  decide (td.app_id = appId) && name_matches td.review_name r.userName

/-- main.py:616: the pending tasks of an app, in stream order. -/
def pending_tasks_of (s : BotState) (appId : String) : List (Nat × TaskRec) :=
  s.tasks.filter (fun p => decide (p.2.app_id = appId) && decide (p.2.status = Status.pending))

/-- main.py:617-630: scan the pending tasks of the app; on the first whose
claimed name matches the review author, call `approve_task` with the task's
captured price and `break` (main.py:630) — at most one task is settled per
review, and tasks after the first match are not examined. -/
def settle_loop (s : BotState) (author : String) (now : Nat) :
    List (Nat × TaskRec) → BotState
  | [] => s
  | (tid, td) :: rest =>
      if name_matches td.review_name author then
        (approve_task s tid td.user_id td.price now).1
      else settle_loop s author now rest

/-- main.py:615-630: the settlement step attached to a newly seen review.
Settlement is attempted only when `r['score'] == 5`; any other rating leaves
every task untouched (main.py has no reject-on-low-rating branch and no
deadline sweep). -/
def settle_on_review (s : BotState) (appId : String) (r : Review) (now : Nat) : BotState :=
  if r.score = 5 then settle_loop s r.userName now (pending_tasks_of s appId) else s

/-- main.py:599-630: the per-review body below the freshness check: skip if
the review id is already in `seen_reviews`; otherwise emit one notification,
write the seen marker, then run the settlement step. (In main.py as written
this code is unreachable from the automation loop: see `process_review`.) -/
def process_fresh_review (s : BotState) (appId : String) (r : Review) (now : Nat) : BotState :=
  if (lookupA s.seen_reviews r.reviewId).isSome then s
  else
    settle_on_review
      { s with
          sent := s.sent ++ [{ app_id := appId, reviewId := r.reviewId,
                               userName := r.userName, score := r.score }],
          seen_reviews := (r.reviewId, now) :: s.seen_reviews }
      appId r now

/-- Python runtime errors the embedded automation can raise. -/
inductive PyErr
  | nameError (missing : String)
deriving DecidableEq, Repr

/-- main.py:594-597, the per-review loop body. Its first statement evaluates
`r_date < datetime.now() - timedelta(hours=48)`, but main.py line 9 imports
only `datetime` and `time` from the datetime module and `timedelta` is bound
nowhere else in the file, so the name lookup raises `NameError` before the
comparison happens and before any state is touched. The rest of the body
(`process_fresh_review`) is therefore unreachable from the automation loop.
-/
def process_review (s : BotState) (appId : String) (r : Review) (now : Nat) :
    Except PyErr BotState :=
  Except.error (PyErr.nameError "timedelta")

/-- main.py:590-632: the per-app body of the automation loop: iterate over
the fetched reviews; the surrounding `try/except` catches the first raised
exception, keeping whatever mutations were already made and abandoning the
remaining reviews of that app. -/
def process_app_reviews (s : BotState) (appId : String) (now : Nat) :
    List Review → BotState × Option PyErr
  | [] => (s, none)
  | r :: rs =>
      match process_review s appId r now with
      | Except.error e => (s, some e)
      | Except.ok s1 => process_app_reviews s1 appId now rs

/-- One pass of the automation loop main.py:584-635: for each monitored app,
fetch its newest reviews (`fetched`) and process them; exceptions are caught
per app, so one app's failure does not block the others. -/
def automation_cycle (s : BotState) (fetched : String → List Review) (now : Nat) : BotState :=
  s.config.monitored_apps.foldl
    (fun st app => (process_app_reviews st app.1 now (fetched app.1)).1) s

/-- Python str.isdigit() on the id entered in the add-admin dialog
(main.py:873), restricted to ASCII digits. -/
def py_isdigit (x : String) : Bool :=
  !x.toList.isEmpty && x.toList.all Char.isDigit

/-- main.py:871-879 `add_admin_save` (terminal step of the add-admin dialog,
wired at main.py:1280-1284): validates only that the entered id is numeric,
then writes `is_admin = True` with `set(..., merge=True)`, which creates the
user document if absent. The handler performs no `is_admin` check on the
acting user (`actor` is unused), and neither does its entry point
`add_admin_start` (main.py:867-869). -/
def add_admin_save (s : BotState) (actor uid : String) : BotState × Bool :=
  if !py_isdigit uid then (s, false)
  else
    match lookupA s.users uid with
    | some u => ({ s with users := setA s.users uid ({ u with is_admin := true }) }, true)
    | none =>
        ({ s with users := (uid,
            { name := "", balance := 0, total_tasks := 0, referrer := none,
              is_blocked := false, is_admin := true }) :: s.users }, true)

/-- main.py:478-517 + main.py:1198-1208: the submission dialog end-to-end.
Entry goes through `start_task_submission`; only the `proceed` outcome leads
into the prompt states whose terminal step `save_task` creates the task
(main.py:464 `get_review_name` stores the claimed name `.strip()`-ped). Any
refusal at entry ends the conversation with no task created. -/
def task_submission_flow (s : BotState) (user_id : String) (inp : SubmissionInputs)
    (now : Nat) : BotState × Option Nat :=
  match start_task_submission s now with
  | (s1, StartSubmitOutcome.proceed) =>
      let r := save_task s1 user_id inp.app_id (pyStrip inp.review_name)
        inp.email inp.device inp.screenshot now
      (r.1, some r.2)
  | (s1, _) => (s1, none)

/-! ## Settlement attempts on one task (for the idempotency claims)

Two independent activity sources settle the same task: the automatic sweep,
which calls `approve_task` directly with the task's own user id and captured
price (main.py:620-621), and the manual admin action `handle_task_action`
(main.py:530-564). Each attempt is modelled as one atomic step. -/

inductive TaskSettle
  | auto (uid : String) (amt : ℚ)
  | manual (actor : String) (approve : Bool) (uid : String)
deriving DecidableEq, Repr

/-- Apply one settlement attempt; the Bool is whether the attempt actually
settled the task (for `approve_task` its return value, for the manual handler
whether it reported a performed approve/reject rather than a refusal). -/
def apply_task_settle (s : BotState) (tid : Nat) (now : Nat) : TaskSettle → BotState × Bool
  | TaskSettle.auto uid amt => approve_task s tid uid amt now
  | TaskSettle.manual actor approve uid =>
      let r := handle_task_action s actor approve tid uid now
      (r.1, decide (r.2 = TaskActReport.approvedOk) || decide (r.2 = TaskActReport.rejectedOk))

/-- A settlement attempt as the callers construct it for the task it targets:
the automatic path passes the task's own user id and captured price
(main.py:620-621), the manual path is performed by an admin and carries the
task owner's id from the callback data built at submission (main.py:510-512).
-/
def TaskSettleOK (s : BotState) (td : TaskRec) : TaskSettle → Prop
  | TaskSettle.auto uid amt => uid = td.user_id ∧ amt = td.price
  | TaskSettle.manual actor _ uid => is_admin s actor = true ∧ uid = td.user_id

/-! ## Concrete example states for counterexamples and witnesses -/

/-- A small running configuration: price 20, bonus 5, min withdraw 50, one
monitored app, working hours 10:00-22:00 in minutes of the day. -/
def exConfig : Config :=
  { task_price := 20, referral_bonus := 5, min_withdraw := 50,
    monitored_apps := [("app.x", "X App")],
    work_start_time := 600, work_end_time := 1320 }

def exUserA : UserRec :=
  { name := "A", balance := 7, total_tasks := 0, referrer := none,
    is_blocked := false, is_admin := false }

def exUserB : UserRec :=
  { name := "B", balance := 100, total_tasks := 3, referrer := some "10",
    is_blocked := false, is_admin := false }

def exUserC : UserRec :=
  { name := "C", balance := 40, total_tasks := 1, referrer := none,
    is_blocked := false, is_admin := false }

def exTask (owner rname : String) (st : Status) : TaskRec :=
  { user_id := owner, app_id := "app.x", review_name := rname,
    email := "e@x", device := "dev", screenshot := "http://s",
    status := st, submitted_at := 0, price := 20,
    approved_at := none, processed_by := none }

/-- Base state: owner "1"; users A("10"), B("20", referred by A), C("21");
one pending task of B claiming "Jane Doe", one pending task of C claiming
" jane doe " (both for the monitored app); one pending withdrawal of B over
60; nothing seen, nothing sent. -/
def exState : BotState :=
  { owner_id := "1", config := exConfig,
    users := [("10", exUserA), ("20", exUserB), ("21", exUserC)],
    tasks := [(1, exTask "20" "Jane Doe" Status.pending),
              (2, exTask "21" " jane doe " Status.pending)],
    withdrawals := [(5, { user_id := "20", amount := 60, method := "Bkash",
                          number := "017", status := Status.pending,
                          requested_at := 0, processed_by := none })],
    next_task_id := 3, next_wd_id := 6,
    seen_reviews := [], sent := [] }

/-- A five-star review by "Jane Doe", unseen. -/
def exReview5 : Review :=
  { reviewId := "r5", userName := "Jane Doe", score := 5, content := "good",
    posted_at := 0 }

/-- A three-star review by "Jane Doe", unseen. -/
def exReview3 : Review :=
  { reviewId := "r3", userName := "Jane Doe", score := 3, content := "meh",
    posted_at := 0 }

/-- A five-star review by someone matching no task, unseen. -/
def exReviewOther : Review :=
  { reviewId := "r9", userName := "Nobody Here", score := 5, content := "hi",
    posted_at := 0 }

/-- exState with only B's task, long past any deadline, and user "999"
(a non-admin) present. -/
def exStateOld : BotState :=
  { exState with
    tasks := [(1, exTask "20" "Jane Doe" Status.pending)],
    users := exState.users ++ [("999",
      { name := "M", balance := 0, total_tasks := 0, referrer := none,
        is_blocked := false, is_admin := false })] }

/-- exStateOld with B's task already rejected. -/
def exStateRej : BotState :=
  { exStateOld with tasks := [(1, exTask "20" "Jane Doe" Status.rejected)] }

/-! ## Store lemmas -/

theorem lookupA_setA_same {κ α : Type} [DecidableEq κ] (l : List (κ × α)) (k : κ) (nv : α) :
    lookupA (setA l k nv) k = (lookupA l k).map (fun _ => nv) := by
  induction l with
  | nil => rfl
  | cons p rest ih =>
      obtain ⟨k', v⟩ := p
      by_cases h : k' = k <;> simp [lookupA, setA, h, ih]

theorem lookupA_setA_ne {κ α : Type} [DecidableEq κ] (l : List (κ × α)) (k k' : κ) (nv : α)
    (h : k' ≠ k) : lookupA (setA l k nv) k' = lookupA l k' := by
  induction l with
  | nil => rfl
  | cons p rest ih =>
      obtain ⟨k0, v⟩ := p
      by_cases h0 : k0 = k
      · subst h0
        simp [lookupA, setA, Ne.symm h]
      · by_cases h1 : k0 = k' <;> simp [lookupA, setA, h0, h1, ih, h]

theorem lookupA_modifyA_same {κ α : Type} [DecidableEq κ] (l : List (κ × α)) (k : κ) (f : α → α) :
    lookupA (modifyA l k f) k = (lookupA l k).map f := by
  induction l with
  | nil => rfl
  | cons p rest ih =>
      obtain ⟨k', v⟩ := p
      by_cases h : k' = k <;> simp [lookupA, modifyA, h, ih]

theorem lookupA_modifyA_ne {κ α : Type} [DecidableEq κ] (l : List (κ × α)) (k k' : κ) (f : α → α)
    (h : k' ≠ k) : lookupA (modifyA l k f) k' = lookupA l k' := by
  induction l with
  | nil => rfl
  | cons p rest ih =>
      obtain ⟨k0, v⟩ := p
      by_cases h0 : k0 = k
      · subst h0
        simp [lookupA, modifyA, Ne.symm h]
      · by_cases h1 : k0 = k' <;> simp [lookupA, modifyA, h0, h1, ih, h]

/-! ## Normalization lemmas -/

theorem char_toNat_ofNat (n : Nat) (h : n.isValidChar) : (Char.ofNat n).toNat = n := by
  simp [Char.ofNat, h, Char.ofNatAux, Char.toNat, UInt32.toNat]

theorem char_eq_iff_toNat {a b : Char} : a = b ↔ a.toNat = b.toNat :=
  ⟨fun h => by rw [h], fun h => Char.ext (UInt32.ext h)⟩

theorem isWhitespace_iff_toNat (c : Char) :
    c.isWhitespace = true ↔ (c.toNat = 32 ∨ c.toNat = 9 ∨ c.toNat = 13 ∨ c.toNat = 10) := by
  constructor
  · intro h
    unfold Char.isWhitespace at h
    simp only [Bool.or_eq_true, decide_eq_true_eq] at h
    rcases h with ((h | h) | h) | h <;> subst h <;> decide
  · intro h
    have hc : c = ' ' ∨ c = '\t' ∨ c = '\x0d' ∨ c = '\n' := by
      rcases h with h | h | h | h
      · exact Or.inl (char_eq_iff_toNat.mpr (h.trans (by decide)))
      · exact Or.inr (Or.inl (char_eq_iff_toNat.mpr (h.trans (by decide))))
      · exact Or.inr (Or.inr (Or.inl (char_eq_iff_toNat.mpr (h.trans (by decide)))))
      · exact Or.inr (Or.inr (Or.inr (char_eq_iff_toNat.mpr (h.trans (by decide)))))
    rcases hc with h | h | h | h <;> subst h <;> decide

/-- Lowercasing never turns a character into whitespace or out of it. -/
theorem isWhitespace_toLower (c : Char) :
    (Char.toLower c).isWhitespace = c.isWhitespace := by
  unfold Char.toLower
  by_cases h : c.toNat ≥ 65 ∧ c.toNat ≤ 90
  · rw [if_pos h]
    have hv : Nat.isValidChar (c.toNat + 32) := Or.inl (by omega)
    have ht : (Char.ofNat (c.toNat + 32)).toNat = c.toNat + 32 := char_toNat_ofNat _ hv
    have h1 : (Char.ofNat (c.toNat + 32)).isWhitespace = false := by
      rw [← Bool.not_eq_true, isWhitespace_iff_toNat, ht]
      omega
    have h2 : c.isWhitespace = false := by
      rw [← Bool.not_eq_true, isWhitespace_iff_toNat]
      omega
    rw [h1, h2]
  · rw [if_neg h]

theorem dropWhile_map_of_pres (f : Char → Char) (p : Char → Bool)
    (hf : ∀ c, p (f c) = p c) (l : List Char) :
    (l.map f).dropWhile p = (l.dropWhile p).map f := by
  induction l with
  | nil => rfl
  | cons a l ih =>
      simp only [List.map_cons, List.dropWhile_cons, hf a]
      by_cases h : p a = true
      · simp [h, ih]
      · simp [h]

theorem stripL_map_toLower (l : List Char) :
    stripL (l.map Char.toLower) = (stripL l).map Char.toLower := by
  unfold stripL
  rw [dropWhile_map_of_pres _ _ isWhitespace_toLower, ← List.map_reverse,
      dropWhile_map_of_pres _ _ isWhitespace_toLower, ← List.map_reverse]

/-- `.lower().strip()` (the source's order, main.py:619) agrees with
`.strip().lower()` (the spec's order). -/
theorem pyStrip_pyLower (x : String) : pyStrip (pyLower x) = pyLower (pyStrip x) := by
  show String.mk (stripL (x.toList.map Char.toLower))
      = String.mk ((stripL x.toList).map Char.toLower)
  exact congrArg String.mk (stripL_map_toLower x.toList)

/-! ## Automation inertness helpers -/

theorem process_app_reviews_fst (s : BotState) (appId : String) (now : Nat)
    (rs : List Review) : (process_app_reviews s appId now rs).1 = s := by
  cases rs <;> rfl

theorem automation_cycle_eq (s : BotState) (fetched : String → List Review) (now : Nat) :
    automation_cycle s fetched now = s := by
  unfold automation_cycle
  generalize s.config.monitored_apps = apps
  induction apps generalizing s with
  | nil => rfl
  | cons a l ih =>
      rw [List.foldl_cons, process_app_reviews_fst]
      exact ih _

/-! ## Claim theorems -/

/-- C4: a task matches a review exactly when the task's claimed review name,
trimmed of surrounding whitespace and lowercased, equals the review author's
name trimmed and lowercased, and the task's app id equals the app the review
was fetched for; in particular "Jane Doe", "jane doe" and " Jane Doe " all
match a review authored "Jane Doe". -/
theorem c4_matching_rule :
    (∀ (td : TaskRec) (appId : String) (r : Review),
        task_matches_review td appId r = true ↔
          (pyLower (pyStrip td.review_name) = pyLower (pyStrip r.userName)
            ∧ td.app_id = appId))
    ∧ name_matches "Jane Doe" "Jane Doe" = true
    ∧ name_matches "jane doe" "Jane Doe" = true
    ∧ name_matches " Jane Doe " "Jane Doe" = true := by
  refine ⟨?_, by decide, by decide, by decide⟩
  intro td appId r
  unfold task_matches_review name_matches
  simp only [Bool.and_eq_true, decide_eq_true_eq, pyStrip_pyLower]
  exact and_comm

/-- C3 (amended): a newly seen review whose rating is below the maximum
triggers no settlement at all — the state is returned unchanged, so a matched
pending task stays pending (it is not rejected and no reason is recorded) and
no credit is applied. -/
theorem c3_low_rating_no_settlement :
    ∀ (s : BotState) (appId : String) (r : Review) (now : Nat),
      r.score ≠ 5 → settle_on_review s appId r now = s := by
  intro s appId r now h
  simp [settle_on_review, h]

theorem c3_low_rating_no_settlement_witness :
    settle_on_review exState "app.x" exReview3 50 = exState :=
  c3_low_rating_no_settlement exState "app.x" exReview3 50 (by decide)

/-- C3 counterexample: a pending task matched by a newly seen 3-star review is
not transitioned to rejected (no "rating below threshold" rejection exists in
main.py): after the whole per-review body runs, the task is still pending and
the balance unchanged. -/
theorem c3_counterexample :
    taskStatusOf exState 1 = some Status.pending
    ∧ task_matches_review (exTask "20" "Jane Doe" Status.pending) "app.x" exReview3 = true
    ∧ exReview3.score < 5
    ∧ taskStatusOf (process_fresh_review exState "app.x" exReview3 50) 1
        = some Status.pending
    ∧ balanceOf (process_fresh_review exState "app.x" exReview3 50) "20"
        = balanceOf exState "20" := by
  decide

/-- C10 (as the code actually behaves): the per-review freshness check of
main.py:596 references `timedelta`, which is never imported in main.py, so
processing any nonempty fetched review list raises `NameError` at the first
review and the per-app cycle aborts with the state exactly as it was — no
review, stale or fresh, seen or unseen, ever gets a notification, a seen
marker, or a settlement attempt, and a whole automation cycle is the
identity on the state. -/
theorem c10_automation_inert :
    (∀ (s : BotState) (appId : String) (now : Nat) (r : Review) (rs : List Review),
        process_app_reviews s appId now (r :: rs)
          = (s, some (PyErr.nameError "timedelta")))
    ∧ (∀ (s : BotState) (fetched : String → List Review) (now : Nat),
        automation_cycle s fetched now = s) := by
  constructor
  · intro s appId now r rs
    rfl
  · intro s fetched now
    exact automation_cycle_eq s fetched now

/-- C8: entry into the task-submission flow is guarded by the working-hours
window: with `start < end` the window is inclusive on both bounds, with
`end < start` (crossing midnight) exactly the times `now ≥ start ∨ now ≤ end`
are admitted, and outside the window the flow refuses entry and the whole
dialog creates no task record and leaves the state unchanged. -/
theorem c8_working_hours_guard :
    (∀ start endT now : Nat, start < endT →
        (is_working_hour start endT now = true ↔ (start ≤ now ∧ now ≤ endT)))
    ∧ (∀ start endT now : Nat, endT < start →
        (is_working_hour start endT now = true ↔ (now ≥ start ∨ now ≤ endT)))
    ∧ (∀ (s : BotState) (uid : String) (inp : SubmissionInputs) (now : Nat),
        is_working_hour s.config.work_start_time s.config.work_end_time now = false →
          start_task_submission s now = (s, StartSubmitOutcome.refusedOutsideHours)
          ∧ task_submission_flow s uid inp now = (s, none)) := by
  refine ⟨?_, ?_, ?_⟩
  · intro st en now h
    simp [is_working_hour, h]
  · intro st en now h
    have h2 : ¬ st < en := by omega
    simp [is_working_hour, h2]
  · intro s uid inp now h
    refine ⟨?_, ?_⟩
    · simp [start_task_submission, h]
    · simp [task_submission_flow, start_task_submission, h]

theorem c8_working_hours_guard_witness :
    (is_working_hour 600 1320 700 = true ↔ (600 ≤ 700 ∧ 700 ≤ 1320))
    ∧ (is_working_hour 1320 120 60 = true ↔ (60 ≥ 1320 ∨ 60 ≤ 120))
    ∧ (start_task_submission exState 90 = (exState, StartSubmitOutcome.refusedOutsideHours)
        ∧ task_submission_flow exState "20" ⟨"app.x", "Jane Doe", "e@x", "dev", "s"⟩ 90
            = (exState, none)) :=
  ⟨c8_working_hours_guard.1 600 1320 700 (by decide),
   c8_working_hours_guard.2.1 1320 120 60 (by decide),
   c8_working_hours_guard.2.2 exState "20" ⟨"app.x", "Jane Doe", "e@x", "dev", "s"⟩ 90
     (by decide)⟩

/-! ## Settlement-loop lemmas -/

theorem settle_loop_append_no_match (s : BotState) (author : String) (now : Nat)
    (l1 rest : List (Nat × TaskRec))
    (h : ∀ p ∈ l1, name_matches p.2.review_name author = false) :
    settle_loop s author now (l1 ++ rest) = settle_loop s author now rest := by
  induction l1 with
  | nil => rfl
  | cons p l ih =>
      obtain ⟨k, v⟩ := p
      have hv := h (k, v) (List.mem_cons_self _ _)
      simp only [List.cons_append, settle_loop, hv, Bool.false_eq_true, if_false]
      exact ih (fun q hq => h q (List.mem_cons_of_mem _ hq))

theorem settle_loop_no_match (s : BotState) (author : String) (now : Nat)
    (l : List (Nat × TaskRec))
    (h : ∀ p ∈ l, name_matches p.2.review_name author = false) :
    settle_loop s author now l = s := by
  have h2 := settle_loop_append_no_match s author now l [] h
  rwa [List.append_nil] at h2

/-- Settlement never touches a task whose status is not pending: the
`approve_task` re-read guard refuses it, and the scan only ever writes
through `approve_task`. -/
theorem settle_loop_preserves_nonpending (s : BotState) (author : String) (now : Nat)
    (l : List (Nat × TaskRec)) (tid : Nat) (td : TaskRec)
    (hlt : lookupA s.tasks tid = some td) (hnp : td.status ≠ Status.pending) :
    lookupA (settle_loop s author now l).tasks tid = some td := by
  induction l with
  | nil => exact hlt
  | cons p l ih =>
      obtain ⟨k, v⟩ := p
      by_cases hm : name_matches v.review_name author = true
      · simp only [settle_loop, hm, if_true]
        unfold approve_task
        cases hk : lookupA s.tasks k with
        | none => simpa using hlt
        | some w =>
            by_cases hw : w.status = Status.pending
            · simp only [hw, if_true]
              by_cases hkt : k = tid
              · subst hkt
                rw [hk] at hlt
                injection hlt with he
                subst he
                exact absurd hw hnp
              · simpa [lookupA_setA_ne _ _ _ _ (fun hh => hkt hh.symm)] using hlt
            · simpa [hw] using hlt
      · simp only [settle_loop, hm, Bool.false_eq_true, if_false]
        exact ih

/-! ## More claim theorems -/

/-- C5 (the code as written, at the failing input): user B ("20") has
referrer A ("10"); a matching newly seen 5-star review approves B's task and
credits B the captured price, but A's balance is unchanged — and the manual
approval path leaves it unchanged too. main.py's `approve_task` never reads
the referrer field, although the bot's own referral screen advertises a
per-referral bonus. -/
theorem c5_no_referral_credit :
    (lookupA exState.users "20").map (fun u => u.referrer) = some (some "10")
    ∧ taskStatusOf (settle_on_review exState "app.x" exReview5 100) 1 = some Status.approved
    ∧ balanceOf (settle_on_review exState "app.x" exReview5 100) "20"
        = balanceOf exState "20" + 20
    ∧ balanceOf (settle_on_review exState "app.x" exReview5 100) "10" = balanceOf exState "10"
    ∧ balanceOf (handle_task_action exState "1" true 1 "20" 100).1 "10"
        = balanceOf exState "10" := by
  refine ⟨by decide, by decide, ?_, by decide, by decide⟩
  rfl

/-- C9 counterexample: user "999" is neither an admin nor the owner, yet
`add_admin_save` invoked by "999" succeeds and mutates state (it grants the
admin flag to "555"): the admin-management dialog performs no authorization
check. -/
theorem c9_counterexample :
    is_admin exStateOld "999" = false
    ∧ "999" ≠ exStateOld.owner_id
    ∧ (add_admin_save exStateOld "999" "555").2 = true
    ∧ is_admin (add_admin_save exStateOld "999" "555").1 "555" = true
    ∧ (add_admin_save exStateOld "999" "555").1 ≠ exStateOld := by
  decide

/-- C9 (amended): the manual settlement handlers (task and withdrawal
approve/reject) are guarded: invoked by an account that is neither an admin
nor the owner they return an authorization error and mutate nothing. (The
admin-management and config-edit dialog handlers themselves perform no such
check — see the counterexample.) -/
theorem c9_settlement_auth_guard :
    ∀ (s : BotState) (actor : String) (approve : Bool) (tid wid : Nat)
      (uid : String) (now : Nat),
      is_admin s actor = false →
        handle_task_action s actor approve tid uid now = (s, TaskActReport.authError)
        ∧ handle_withdrawal_action s actor approve wid uid = (s, WdActReport.authError) := by
  intro s actor approve tid wid uid now h
  constructor
  · simp [handle_task_action, h]
  · simp [handle_withdrawal_action, h]

theorem c9_settlement_auth_guard_witness :
    handle_task_action exStateOld "999" true 1 "20" 9 = (exStateOld, TaskActReport.authError)
    ∧ handle_withdrawal_action exStateOld "999" false 5 "20"
        = (exStateOld, WdActReport.authError) :=
  c9_settlement_auth_guard exStateOld "999" true 1 5 "20" 9 (by decide)

/-- C2 counterexample: two pending tasks (of B and C) both match the newly
seen 5-star review by "Jane Doe", but the scan `break`s after settling the
first: C's task — pending and matched — is not approved and C is not
credited. -/
theorem c2_counterexample :
    task_matches_review (exTask "21" " jane doe " Status.pending) "app.x" exReview5 = true
    ∧ taskStatusOf exState 2 = some Status.pending
    ∧ exReview5.score = 5
    ∧ taskStatusOf (settle_on_review exState "app.x" exReview5 100) 2 = some Status.pending
    ∧ balanceOf (settle_on_review exState "app.x" exReview5 100) "21"
        = balanceOf exState "21" := by
  decide

/-- C2 (amended): on a newly seen 5-star review, the first pending task of
the app (in scan order) whose claimed name matches the author is approved:
its status becomes approved, its owner's balance grows by exactly the price
captured in the task at submission time, and the owner's completed-task
counter grows by exactly 1; at most this one task is settled per review. -/
theorem c2_first_match_settlement :
    ∀ (s : BotState) (appId : String) (r : Review) (now : Nat)
      (l1 l2 : List (Nat × TaskRec)) (tid : Nat) (td : TaskRec) (u : UserRec),
      r.score = 5 →
      pending_tasks_of s appId = l1 ++ (tid, td) :: l2 →
      (∀ p ∈ l1, name_matches p.2.review_name r.userName = false) →
      name_matches td.review_name r.userName = true →
      lookupA s.tasks tid = some td →
      lookupA s.users td.user_id = some u →
      taskStatusOf (settle_on_review s appId r now) tid = some Status.approved
      ∧ balanceOf (settle_on_review s appId r now) td.user_id = u.balance + td.price
      ∧ (lookupA (settle_on_review s appId r now).users td.user_id).map
          (fun v => v.total_tasks) = some (u.total_tasks + 1) := by
  intro s appId r now l1 l2 tid td u h5 hdec hno hmatch hlt hlu
  have hmem : (tid, td) ∈ pending_tasks_of s appId := by
    rw [hdec]
    exact List.mem_append_right _ (List.mem_cons_self _ _)
  have hpred := List.of_mem_filter hmem
  have hpending : td.status = Status.pending := by
    simp only [Bool.and_eq_true, decide_eq_true_eq] at hpred
    exact hpred.2
  have hrun : settle_on_review s appId r now = (approve_task s tid td.user_id td.price now).1 := by
    unfold settle_on_review
    rw [if_pos h5, hdec, settle_loop_append_no_match s r.userName now l1 _ hno]
    simp [settle_loop, hmatch]
  have happly : approve_task s tid td.user_id td.price now
      = ({ s with
            tasks := setA s.tasks tid
              ({ td with status := Status.approved, approved_at := some now }),
            users := modifyA s.users td.user_id (fun u0 =>
              { u0 with balance := u0.balance + td.price,
                        total_tasks := u0.total_tasks + 1 }) }, true) := by
    unfold approve_task
    simp only [hlt, hpending, if_true]
  rw [hrun, happly]
  refine ⟨?_, ?_, ?_⟩
  · unfold taskStatusOf
    simp [lookupA_setA_same, hlt]
  · unfold balanceOf
    simp [lookupA_modifyA_same, hlu]
  · simp [lookupA_modifyA_same, hlu]

theorem c2_first_match_settlement_witness :
    taskStatusOf (settle_on_review exStateOld "app.x" exReview5 100) 1 = some Status.approved
    ∧ balanceOf (settle_on_review exStateOld "app.x" exReview5 100) "20"
        = exUserB.balance + (exTask "20" "Jane Doe" Status.pending).price
    ∧ (lookupA (settle_on_review exStateOld "app.x" exReview5 100).users "20").map
        (fun v => v.total_tasks) = some (exUserB.total_tasks + 1) :=
  c2_first_match_settlement exStateOld "app.x" exReview5 100 [] []
    1 (exTask "20" "Jane Doe" Status.pending) exUserB rfl (by decide)
    (by intro p hp; exact absurd hp (List.not_mem_nil p)) (by decide)
    (by decide) (by decide)

/-- C6 counterexample: a task submitted at time 0 and still pending at time
1000000 (far beyond any configured deadline), never matched by any review, is
not auto-rejected: a full automation cycle in which no reviews arrive — and
likewise a newly seen review matching nothing — leaves it pending; no
"not found within deadline" rejection exists in main.py. -/
theorem c6_counterexample :
    exStateOld.config.monitored_apps = [("app.x", "X App")]
    ∧ taskStatusOf exStateOld 1 = some Status.pending
    ∧ (exTask "20" "Jane Doe" Status.pending).submitted_at = 0
    ∧ taskStatusOf (automation_cycle exStateOld (fun _ => []) 1000000) 1
        = some Status.pending
    ∧ taskStatusOf (process_fresh_review exStateOld "app.x" exReviewOther 1000000) 1
        = some Status.pending := by
  decide

/-- C6 (amended): main.py performs no deadline sweep: an automation cycle in
which no reviews arrive changes nothing at all; a newly seen review matching
no pending task of the app leaves every task untouched however much time has
passed since submission; and a task already rejected is never approved by a
later-arriving matching 5-star review, because every settlement write goes
through the pending-status re-read of `approve_task`. -/
theorem c6_no_deadline_sweep :
    (∀ (s : BotState) (fetched : String → List Review) (now : Nat),
        automation_cycle s fetched now = s)
    ∧ (∀ (s : BotState) (appId : String) (r : Review) (now : Nat),
        (∀ p ∈ pending_tasks_of s appId, name_matches p.2.review_name r.userName = false) →
        (process_fresh_review s appId r now).tasks = s.tasks)
    ∧ (∀ (s : BotState) (appId : String) (r : Review) (now : Nat) (tid : Nat) (td : TaskRec),
        lookupA s.tasks tid = some td → td.status = Status.rejected →
        lookupA (process_fresh_review s appId r now).tasks tid = some td) := by
  refine ⟨fun s fetched now => automation_cycle_eq s fetched now, ?_, ?_⟩
  · intro s appId r now h
    unfold process_fresh_review
    by_cases hseen : (lookupA s.seen_reviews r.reviewId).isSome = true
    · simp [hseen]
    · simp only [hseen, Bool.false_eq_true, if_false]
      unfold settle_on_review
      by_cases h5 : r.score = 5
      · rw [if_pos h5, settle_loop_no_match]
        exact h
      · rw [if_neg h5]
  · intro s appId r now tid td hlt hrej
    have hnp : td.status ≠ Status.pending := by
      rw [hrej]
      intro hc
      exact Status.noConfusion hc
    unfold process_fresh_review
    by_cases hseen : (lookupA s.seen_reviews r.reviewId).isSome = true
    · simpa [hseen] using hlt
    · simp only [hseen, Bool.false_eq_true, if_false]
      unfold settle_on_review
      by_cases h5 : r.score = 5
      · rw [if_pos h5]
        exact settle_loop_preserves_nonpending _ _ _ _ _ _ hlt hnp
      · rw [if_neg h5]
        exact hlt

theorem c6_no_deadline_sweep_witness :
    (process_fresh_review exStateOld "app.x" exReviewOther 7).tasks = exStateOld.tasks
    ∧ lookupA (process_fresh_review exStateRej "app.x" exReview5 7).tasks 1
        = some (exTask "20" "Jane Doe" Status.rejected) :=
  ⟨c6_no_deadline_sweep.2.1 exStateOld "app.x" exReviewOther 7 (by decide),
   c6_no_deadline_sweep.2.2 exStateRej "app.x" exReview5 7 1
     (exTask "20" "Jane Doe" Status.rejected) (by decide) rfl⟩

/-! ## Withdrawal round-trip (C7) -/

/-- C7: for a user with a known balance, a request below `min_withdraw` or
above the balance is refused with the state unchanged (never creating a
record); a valid request (`min_withdraw ≤ amount ≤ balance`) debits the exact
amount immediately and creates a pending withdrawal carrying that amount; and
an admin rejection of that request refunds exactly the debited amount, so the
balance equals the balance before the request. -/
theorem c7_withdrawal_roundtrip :
    ∀ (s : BotState) (uid : String) (u : UserRec) (amount : ℚ)
      (method number : String) (now : Nat) (actor : String),
      lookupA s.users uid = some u →
      ((amount < s.config.min_withdraw ∨ amount > u.balance) →
          (withdraw_amount s uid amount method number now).1 = s
          ∧ ∀ wid, (withdraw_amount s uid amount method number now).2
              ≠ WithdrawOutcome.ok wid)
      ∧ (s.config.min_withdraw ≤ amount → amount ≤ u.balance →
          balanceOf (withdraw_amount s uid amount method number now).1 uid
              = u.balance - amount
          ∧ wdStatusOf (withdraw_amount s uid amount method number now).1 s.next_wd_id
              = some Status.pending
          ∧ (lookupA (withdraw_amount s uid amount method number now).1.withdrawals
                s.next_wd_id).map (fun w => w.amount) = some amount
          ∧ (is_admin (withdraw_amount s uid amount method number now).1 actor = true →
              balanceOf (handle_withdrawal_action
                  (withdraw_amount s uid amount method number now).1 actor false
                  s.next_wd_id uid).1 uid = u.balance)) := by
  intro s uid u amount method number now actor hu
  constructor
  · intro hbad
    by_cases hmin : amount < s.config.min_withdraw
    · constructor
      · simp [withdraw_amount, hu, hmin]
      · intro wid
        simp [withdraw_amount, hu, hmin]
    · have hover : amount > u.balance := by
        rcases hbad with h | h
        · exact absurd h hmin
        · exact h
      constructor
      · simp [withdraw_amount, hu, hmin, hover]
      · intro wid
        simp [withdraw_amount, hu, hmin, hover]
  · intro hmin hbal
    have hnm : ¬ amount < s.config.min_withdraw := not_lt.mpr hmin
    have hni : ¬ amount > u.balance := not_lt.mpr hbal
    have hrun : withdraw_amount s uid amount method number now
        = ({ s with
              users := modifyA s.users uid (fun v =>
                { v with balance := v.balance + (-amount) }),
              withdrawals := (s.next_wd_id,
                { user_id := uid, amount := amount, method := method, number := number,
                  status := Status.pending, requested_at := now, processed_by := none })
                :: s.withdrawals,
              next_wd_id := s.next_wd_id + 1 },
            WithdrawOutcome.ok s.next_wd_id) := by
      unfold withdraw_amount
      simp only [hu, hnm, hni, if_false]
    have hw1 : (withdraw_amount s uid amount method number now).1.users
        = modifyA s.users uid (fun v => { v with balance := v.balance + (-amount) }) := by
      rw [hrun]
    have hw2 : (withdraw_amount s uid amount method number now).1.withdrawals
        = (s.next_wd_id,
            ({ user_id := uid, amount := amount, method := method, number := number,
               status := Status.pending, requested_at := now,
               processed_by := none } : WithdrawalRec)) :: s.withdrawals := by
      rw [hrun]
    have hl1 : lookupA (withdraw_amount s uid amount method number now).1.withdrawals
        s.next_wd_id
        = some ({ user_id := uid, amount := amount, method := method, number := number,
                  status := Status.pending, requested_at := now,
                  processed_by := none } : WithdrawalRec) := by
      rw [hw2]
      simp [lookupA]
    refine ⟨?_, ?_, ?_, ?_⟩
    · unfold balanceOf
      rw [hw1, lookupA_modifyA_same, hu]
      show u.balance + (-amount) = u.balance - amount
      exact (sub_eq_add_neg u.balance amount).symm
    · unfold wdStatusOf
      rw [hl1]
      rfl
    · rw [hl1]
      rfl
    · intro hadm
      unfold handle_withdrawal_action
      rw [if_pos hadm]
      simp only [hl1]
      rw [if_pos trivial, if_neg (by simp)]
      unfold balanceOf
      simp only [hw1, lookupA_modifyA_same, hu, Option.map_map, Option.map_some]
      show u.balance + (-amount) + amount = u.balance
      exact neg_add_cancel_right u.balance amount

theorem c7_withdrawal_roundtrip_witness :
    ((60 : ℚ) < exState.config.min_withdraw ∨ (60 : ℚ) > exUserB.balance →
        (withdraw_amount exState "20" 60 "Bkash" "017" 3).1 = exState
        ∧ ∀ wid, (withdraw_amount exState "20" 60 "Bkash" "017" 3).2
            ≠ WithdrawOutcome.ok wid)
    ∧ (exState.config.min_withdraw ≤ (60 : ℚ) → (60 : ℚ) ≤ exUserB.balance →
        balanceOf (withdraw_amount exState "20" 60 "Bkash" "017" 3).1 "20"
            = exUserB.balance - 60
        ∧ wdStatusOf (withdraw_amount exState "20" 60 "Bkash" "017" 3).1 exState.next_wd_id
            = some Status.pending
        ∧ (lookupA (withdraw_amount exState "20" 60 "Bkash" "017" 3).1.withdrawals
              exState.next_wd_id).map (fun w => w.amount) = some 60
        ∧ (is_admin (withdraw_amount exState "20" 60 "Bkash" "017" 3).1 "1" = true →
            balanceOf (handle_withdrawal_action
                (withdraw_amount exState "20" 60 "Bkash" "017" 3).1 "1" false
                exState.next_wd_id "20").1 "20" = exUserB.balance)) :=
  c7_withdrawal_roundtrip exState "20" exUserB 60 "Bkash" "017" 3 "1" (by decide)

/-! ## Idempotent settlement (C1) -/

theorem is_admin_users_modifyA (s s' : BotState) (k : String)
    (f : UserRec → UserRec) (hf : ∀ v, (f v).is_admin = v.is_admin)
    (h1 : s'.owner_id = s.owner_id) (h2 : s'.users = modifyA s.users k f) (x : String) :
    is_admin s' x = is_admin s x := by
  unfold is_admin
  rw [h1, h2]
  by_cases hx : x = s.owner_id
  · simp [hx]
  · simp only [hx, if_false]
    by_cases hk : x = k
    · subst hk
      rw [lookupA_modifyA_same]
      cases lookupA s.users x <;> simp [hf]
    · rw [lookupA_modifyA_ne _ _ _ _ hk]

theorem is_admin_apply_task_settle (s : BotState) (tid : Nat) (now : Nat) (a : TaskSettle)
    (x : String) : is_admin (apply_task_settle s tid now a).1 x = is_admin s x := by
  have happ : ∀ uid amt, is_admin (approve_task s tid uid amt now).1 x = is_admin s x := by
    intro uid amt
    cases hk : lookupA s.tasks tid with
    | none =>
        have hres : approve_task s tid uid amt now = (s, false) := by
          unfold approve_task
          rw [hk]
        rw [hres]
    | some td =>
        by_cases hp : td.status = Status.pending
        · have howner : (approve_task s tid uid amt now).1.owner_id = s.owner_id := by
            unfold approve_task
            simp only [hk]
            rw [if_pos hp]
          have husers : (approve_task s tid uid amt now).1.users
              = modifyA s.users uid (fun u =>
                  { u with balance := u.balance + amt,
                           total_tasks := u.total_tasks + 1 }) := by
            unfold approve_task
            simp only [hk]
            rw [if_pos hp]
          exact is_admin_users_modifyA s _ uid
            (fun u => { u with balance := u.balance + amt,
                               total_tasks := u.total_tasks + 1 })
            (fun v => rfl) howner husers x
        · have hres : approve_task s tid uid amt now = (s, false) := by
            unfold approve_task
            simp only [hk]
            rw [if_neg hp]
          rw [hres]
  cases a with
  | auto uid amt => exact happ uid amt
  | manual actor approve uid =>
      show is_admin (handle_task_action s actor approve tid uid now).1 x = is_admin s x
      by_cases ha : is_admin s actor = true
      · cases hk : lookupA s.tasks tid with
        | none =>
            have hres : handle_task_action s actor approve tid uid now
                = (s, TaskActReport.notFound) := by
              unfold handle_task_action
              rw [if_pos ha]
              simp only [hk]
            rw [hres]
        | some td =>
            by_cases hp : td.status = Status.pending
            · cases approve with
              | true =>
                  have hres : handle_task_action s actor true tid uid now
                      = ((approve_task s tid uid td.price now).1,
                         TaskActReport.approvedOk) := by
                    unfold handle_task_action
                    rw [if_pos ha]
                    simp only [hk]
                    rw [if_pos hp, if_pos (by trivial)]
                  rw [hres]
                  exact happ uid td.price
              | false =>
                  have hres : handle_task_action s actor false tid uid now
                      = ({ s with
                            tasks := setA s.tasks tid
                              ({ td with status := Status.rejected,
                                         processed_by := some actor }) },
                         TaskActReport.rejectedOk) := by
                    unfold handle_task_action
                    rw [if_pos ha]
                    simp only [hk]
                    rw [if_pos hp, if_neg (by simp)]
                  rw [hres]
                  rfl
            · have hres : handle_task_action s actor approve tid uid now
                  = (s, TaskActReport.alreadyProcessed td.status) := by
                unfold handle_task_action
                rw [if_pos ha]
                simp only [hk]
                rw [if_neg hp]
              rw [hres]
      · have hres : handle_task_action s actor approve tid uid now
            = (s, TaskActReport.authError) := by
          unfold handle_task_action
          rw [if_neg ha]
        rw [hres]

theorem is_admin_handle_withdrawal_action (s : BotState) (actor0 : String) (ap : Bool)
    (wid : Nat) (uid x : String) :
    is_admin (handle_withdrawal_action s actor0 ap wid uid).1 x = is_admin s x := by
  by_cases ha : is_admin s actor0 = true
  · cases hk : lookupA s.withdrawals wid with
    | none =>
        have hres : handle_withdrawal_action s actor0 ap wid uid
            = (s, WdActReport.notFound) := by
          unfold handle_withdrawal_action
          rw [if_pos ha]
          simp only [hk]
        rw [hres]
    | some wd =>
        by_cases hp : wd.status = Status.pending
        · cases ap with
          | true =>
              have hres : handle_withdrawal_action s actor0 true wid uid
                  = ({ s with
                        withdrawals := setA s.withdrawals wid
                          ({ wd with status := Status.approved,
                                     processed_by := some actor0 }) },
                     WdActReport.approvedOk) := by
                unfold handle_withdrawal_action
                rw [if_pos ha]
                simp only [hk]
                rw [if_pos hp, if_pos (by trivial)]
              rw [hres]
              rfl
          | false =>
              have howner : (handle_withdrawal_action s actor0 false wid uid).1.owner_id
                  = s.owner_id := by
                unfold handle_withdrawal_action
                rw [if_pos ha]
                simp only [hk]
                rw [if_pos hp, if_neg (by simp)]
              have husers : (handle_withdrawal_action s actor0 false wid uid).1.users
                  = modifyA s.users uid (fun u =>
                      { u with balance := u.balance + wd.amount }) := by
                unfold handle_withdrawal_action
                rw [if_pos ha]
                simp only [hk]
                rw [if_pos hp, if_neg (by simp)]
              exact is_admin_users_modifyA s _ uid
                (fun u => { u with balance := u.balance + wd.amount })
                (fun v => rfl) howner husers x
        · have hres : handle_withdrawal_action s actor0 ap wid uid
              = (s, WdActReport.alreadyProcessed wd.status) := by
            unfold handle_withdrawal_action
            rw [if_pos ha]
            simp only [hk]
            rw [if_neg hp]
          rw [hres]
  · have hres : handle_withdrawal_action s actor0 ap wid uid
        = (s, WdActReport.authError) := by
      unfold handle_withdrawal_action
      rw [if_neg ha]
    rw [hres]

/-- An attempt on an already-settled task is a complete no-op signalling
non-success, whatever the path (the `approve_task` re-read, the manual
handler's status check, or the authorization check before it). -/
theorem apply_task_settle_settled (s : BotState) (tid : Nat) (now : Nat) (a : TaskSettle)
    (td : TaskRec) (hlt : lookupA s.tasks tid = some td)
    (hnp : td.status ≠ Status.pending) :
    apply_task_settle s tid now a = (s, false) := by
  cases a with
  | auto uid amt =>
      show approve_task s tid uid amt now = (s, false)
      unfold approve_task
      simp [hlt, hnp]
  | manual actor approve uid =>
      show (let r := handle_task_action s actor approve tid uid now
            (r.1, decide (r.2 = TaskActReport.approvedOk)
              || decide (r.2 = TaskActReport.rejectedOk))) = (s, false)
      unfold handle_task_action
      by_cases ha : is_admin s actor = true
      · simp [ha, hlt, hnp]
      · simp [ha]

/-- A first attempt on a pending task settles it (status becomes terminal)
and changes the owner's balance by either nothing (manual reject, or missing
user document) or exactly the captured price (approval). -/
theorem apply_task_settle_pending (s : BotState) (tid : Nat) (now : Nat) (a : TaskSettle)
    (td : TaskRec) (hlt : lookupA s.tasks tid = some td) (hp : td.status = Status.pending)
    (hok : TaskSettleOK s td a) :
    (∃ td1, lookupA (apply_task_settle s tid now a).1.tasks tid = some td1
        ∧ td1.status ≠ Status.pending)
    ∧ (balanceOf (apply_task_settle s tid now a).1 td.user_id = balanceOf s td.user_id
       ∨ balanceOf (apply_task_settle s tid now a).1 td.user_id
           = balanceOf s td.user_id + td.price) := by
  have happrove :
      (∃ td1, lookupA (approve_task s tid td.user_id td.price now).1.tasks tid = some td1
          ∧ td1.status ≠ Status.pending)
      ∧ (balanceOf (approve_task s tid td.user_id td.price now).1 td.user_id
            = balanceOf s td.user_id
         ∨ balanceOf (approve_task s tid td.user_id td.price now).1 td.user_id
            = balanceOf s td.user_id + td.price) := by
    unfold approve_task
    simp only [hlt, hp, if_true]
    constructor
    · refine ⟨{ td with status := Status.approved, approved_at := some now }, ?_, ?_⟩
      · show lookupA (setA s.tasks tid _) tid = _
        rw [lookupA_setA_same, hlt]
        rfl
      · intro hc
        exact Status.noConfusion hc
    · unfold balanceOf
      rw [lookupA_modifyA_same]
      cases hu0 : lookupA s.users td.user_id with
      | none => exact Or.inl rfl
      | some u0 => exact Or.inr rfl
  cases a with
  | auto uid amt =>
      obtain ⟨h1, h2⟩ := hok
      subst h1
      subst h2
      exact happrove
  | manual actor approve uid =>
      obtain ⟨ha, h1⟩ := hok
      subst h1
      cases approve with
      | true =>
          have hres : handle_task_action s actor true tid td.user_id now
              = ((approve_task s tid td.user_id td.price now).1,
                 TaskActReport.approvedOk) := by
            unfold handle_task_action
            rw [if_pos ha]
            simp only [hlt]
            rw [if_pos hp, if_pos (by trivial)]
          have hst : (apply_task_settle s tid now (TaskSettle.manual actor true td.user_id)).1
              = (approve_task s tid td.user_id td.price now).1 := by
            show (handle_task_action s actor true tid td.user_id now).1 = _
            rw [hres]
          rw [hst]
          exact happrove
      | false =>
          have hres : handle_task_action s actor false tid td.user_id now
              = ({ s with
                    tasks := setA s.tasks tid
                      ({ td with status := Status.rejected,
                                 processed_by := some actor }) },
                 TaskActReport.rejectedOk) := by
            unfold handle_task_action
            rw [if_pos ha]
            simp only [hlt]
            rw [if_pos hp, if_neg (by simp)]
          have hst : (apply_task_settle s tid now (TaskSettle.manual actor false td.user_id)).1
              = { s with
                    tasks := setA s.tasks tid
                      ({ td with status := Status.rejected,
                                 processed_by := some actor }) } := by
            show (handle_task_action s actor false tid td.user_id now).1 = _
            rw [hres]
          rw [hst]
          refine ⟨⟨{ td with status := Status.rejected, processed_by := some actor },
            ?_, ?_⟩, Or.inl rfl⟩
          · show lookupA (setA s.tasks tid _) tid = _
            rw [lookupA_setA_same, hlt]
            rfl
          · intro hc
            exact Status.noConfusion hc


/-- A first admin resolution of a pending withdrawal settles it, and changes
the user's balance by nothing (approve, or missing user document) or by
exactly the refunded amount (reject). -/
theorem handle_wd_pending (s : BotState) (actor : String) (ap : Bool) (wid : Nat)
    (wd : WithdrawalRec) (hlw : lookupA s.withdrawals wid = some wd)
    (hp : wd.status = Status.pending) (ha : is_admin s actor = true) :
    (∃ wd1, lookupA (handle_withdrawal_action s actor ap wid wd.user_id).1.withdrawals wid
        = some wd1 ∧ wd1.status ≠ Status.pending)
    ∧ (balanceOf (handle_withdrawal_action s actor ap wid wd.user_id).1 wd.user_id
          = balanceOf s wd.user_id
       ∨ balanceOf (handle_withdrawal_action s actor ap wid wd.user_id).1 wd.user_id
          = balanceOf s wd.user_id + wd.amount) := by
  cases ap with
  | true =>
      have hres : handle_withdrawal_action s actor true wid wd.user_id
          = ({ s with
                withdrawals := setA s.withdrawals wid
                  ({ wd with status := Status.approved, processed_by := some actor }) },
             WdActReport.approvedOk) := by
        unfold handle_withdrawal_action
        rw [if_pos ha]
        simp only [hlw]
        rw [if_pos hp, if_pos (by trivial)]
      rw [hres]
      constructor
      · refine ⟨{ wd with status := Status.approved, processed_by := some actor }, ?_, ?_⟩
        · show lookupA (setA s.withdrawals wid _) wid = _
          rw [lookupA_setA_same, hlw]
          rfl
        · intro hc
          exact Status.noConfusion hc
      · exact Or.inl rfl
  | false =>
      have hres : handle_withdrawal_action s actor false wid wd.user_id
          = ({ s with
                withdrawals := setA s.withdrawals wid
                  ({ wd with status := Status.rejected, processed_by := some actor }),
                users := modifyA s.users wd.user_id (fun u =>
                  { u with balance := u.balance + wd.amount }) },
             WdActReport.rejectedOk) := by
        unfold handle_withdrawal_action
        rw [if_pos ha]
        simp only [hlw]
        rw [if_pos hp, if_neg (by simp)]
      rw [hres]
      constructor
      · refine ⟨{ wd with status := Status.rejected, processed_by := some actor }, ?_, ?_⟩
        · show lookupA (setA s.withdrawals wid _) wid = _
          rw [lookupA_setA_same, hlw]
          rfl
        · intro hc
          exact Status.noConfusion hc
      · unfold balanceOf
        rw [lookupA_modifyA_same]
        cases hu0 : lookupA s.users wd.user_id with
        | none => exact Or.inl rfl
        | some u0 => exact Or.inr rfl

/-- A resolution attempt on an already-settled withdrawal is a no-op
reporting "already processed". -/
theorem handle_wd_settled (s : BotState) (actor : String) (ap : Bool) (wid : Nat)
    (uid : String) (wd : WithdrawalRec) (hlw : lookupA s.withdrawals wid = some wd)
    (hnp : wd.status ≠ Status.pending) (ha : is_admin s actor = true) :
    handle_withdrawal_action s actor ap wid uid
      = (s, WdActReport.alreadyProcessed wd.status) := by
  unfold handle_withdrawal_action
  rw [if_pos ha]
  simp only [hlw]
  rw [if_neg hnp]

/-- C1: a pending task or withdrawal is settled at most once. For a task: any
two settlement attempts — automatic sweep or manual admin action, in either
order and combination — leave the task in one terminal status fixed by the
first attempt, the second attempt returns with the state completely unchanged
and a non-success report (the pending-status re-read), and the owner's
balance over both attempts is credited at most once (it changes by nothing or
by exactly the captured price). For a withdrawal: two admin resolutions
settle it exactly once, the second reports "already processed" changing
nothing, and the balance is refunded at most once. -/
theorem c1_settlement_idempotent :
    (∀ (s : BotState) (tid : Nat) (td : TaskRec) (now1 now2 : Nat) (a1 a2 : TaskSettle),
        lookupA s.tasks tid = some td → td.status = Status.pending →
        TaskSettleOK s td a1 → TaskSettleOK s td a2 →
        (∃ td1, lookupA (apply_task_settle s tid now1 a1).1.tasks tid = some td1
            ∧ td1.status ≠ Status.pending)
        ∧ apply_task_settle (apply_task_settle s tid now1 a1).1 tid now2 a2
            = ((apply_task_settle s tid now1 a1).1, false)
        ∧ (balanceOf (apply_task_settle (apply_task_settle s tid now1 a1).1 tid now2 a2).1
              td.user_id = balanceOf s td.user_id
           ∨ balanceOf (apply_task_settle (apply_task_settle s tid now1 a1).1 tid now2 a2).1
              td.user_id = balanceOf s td.user_id + td.price))
    ∧ (∀ (s : BotState) (wid : Nat) (wd : WithdrawalRec) (actor1 actor2 : String)
        (ap1 ap2 : Bool),
        lookupA s.withdrawals wid = some wd → wd.status = Status.pending →
        is_admin s actor1 = true → is_admin s actor2 = true →
        (∃ wd1, lookupA (handle_withdrawal_action s actor1 ap1 wid wd.user_id).1.withdrawals
              wid = some wd1 ∧ wd1.status ≠ Status.pending)
        ∧ (∃ st, handle_withdrawal_action
              (handle_withdrawal_action s actor1 ap1 wid wd.user_id).1 actor2 ap2 wid
              wd.user_id
            = ((handle_withdrawal_action s actor1 ap1 wid wd.user_id).1,
               WdActReport.alreadyProcessed st))
        ∧ (balanceOf (handle_withdrawal_action s actor1 ap1 wid wd.user_id).1 wd.user_id
              = balanceOf s wd.user_id
           ∨ balanceOf (handle_withdrawal_action s actor1 ap1 wid wd.user_id).1 wd.user_id
              = balanceOf s wd.user_id + wd.amount)) := by
  constructor
  · intro s tid td now1 now2 a1 a2 hlt hp hok1 hok2
    obtain ⟨⟨td1, hlt1, hnp1⟩, hbal1⟩ :=
      apply_task_settle_pending s tid now1 a1 td hlt hp hok1
    have hsecond := apply_task_settle_settled (apply_task_settle s tid now1 a1).1 tid now2 a2
      td1 hlt1 hnp1
    refine ⟨⟨td1, hlt1, hnp1⟩, hsecond, ?_⟩
    rw [hsecond]
    exact hbal1
  · intro s wid wd actor1 actor2 ap1 ap2 hlw hp ha1 ha2
    obtain ⟨⟨wd1, hlw1, hnp1⟩, hbal⟩ := handle_wd_pending s actor1 ap1 wid wd hlw hp ha1
    have ha2' : is_admin (handle_withdrawal_action s actor1 ap1 wid wd.user_id).1 actor2
        = true := by
      rw [is_admin_handle_withdrawal_action]
      exact ha2
    have hsecond := handle_wd_settled (handle_withdrawal_action s actor1 ap1 wid wd.user_id).1
      actor2 ap2 wid wd.user_id wd1 hlw1 hnp1 ha2'
    exact ⟨⟨wd1, hlw1, hnp1⟩, ⟨wd1.status, hsecond⟩, hbal⟩


theorem c1_settlement_idempotent_witness :
    apply_task_settle (apply_task_settle exState 1 10 (TaskSettle.auto "20" 20)).1 1 11
        (TaskSettle.manual "1" false "20")
      = ((apply_task_settle exState 1 10 (TaskSettle.auto "20" 20)).1, false)
    ∧ (∃ st, handle_withdrawal_action
          (handle_withdrawal_action exState "1" false 5 "20").1 "1" true 5 "20"
        = ((handle_withdrawal_action exState "1" false 5 "20").1,
           WdActReport.alreadyProcessed st)) :=
  ⟨(c1_settlement_idempotent.1 exState 1 (exTask "20" "Jane Doe" Status.pending) 10 11
      (TaskSettle.auto "20" 20) (TaskSettle.manual "1" false "20") (by decide) rfl
      ⟨rfl, rfl⟩ ⟨by decide, rfl⟩).2.1,
   (c1_settlement_idempotent.2 exState 5
      { user_id := "20", amount := 60, method := "Bkash", number := "017",
        status := Status.pending, requested_at := 0, processed_by := none }
      "1" "1" false true (by decide) rfl (by decide) (by decide)).2.1⟩

end WebReview
